import Mathlib

/-!
Verification of the WebRag ingestion task (`app/tasks/ingestion.py`) against its
natural-language specification.

The single source file defines a Celery task `process_url_ingestion(job_id, url)`
whose inner function `_work` runs the pipeline (parse job_id, mark processing,
fetch, clean, chunk, embed in batches of 100, ensure collection, upsert, mark
completed).  The orchestrator runs `_work` on a separate thread with
`thread.join(timeout=300)`, raises `TimeoutError` when the deadline elapses,
marks the job failed on any exception, and retries with delay `60 * 2 ** retries`
while `retries < max_retries (= 3)`.

External collaborators (StatusStore via `update_job_status_sync`,
ContentProcessor, GeminiEmbeddings, QdrantStore) live outside the provided
source; their call/return behaviour is modelled from the spec's interface
section as an `Env` of oracles, each of which may fail where the spec declares
a failure mode.  The orchestration logic itself is translated line by line.
-/

namespace Ingestion

/-- Job status values written to the StatusStore (`update_job_status_sync`). -/
inductive Status where
  | processing
  | completed
  | failed
deriving DecidableEq, Repr

/-- One call to `update_job_status_sync`: target job, new status, and the
optional fields the source passes (`chunk_count` on completion,
`error_message` on failure).  Timestamps are omitted: no claim mentions them. -/
structure StatusWrite where
  jid : String
  status : Status
  chunk_count : Option Nat
  error_message : Option String
deriving DecidableEq, Repr

/-- Observable collaborator calls made during one execution, in program order.
A `statusWrite` carries `ok = true` when the StatusStore applied it and
`ok = false` when the store raised on that call. -/
inductive Event where
  | statusWrite (w : StatusWrite) (ok : Bool)
  | fetch (url : String)
  | embedCall (batch : List String)
  | createCollection
  | upsert (chunks : List String) (vectors : List (List Int))
deriving DecidableEq, Repr

/-- Modelled from the spec: behaviour of the external collaborators consumed by
the task (StatusStore / ContentFetcher / Embedder / VectorStore, spec section 6),
whose implementations are not part of the provided source.  Each operation the
spec declares fallible (`fails(...)`) is modelled as able to fail:
`validJobId` is whether `UUID(job_id)` parses, the three `...Fails` flags are
whether the corresponding StatusStore/VectorStore call raises, and `fetch`,
`embed`, `addDocuments` return `Except` like the spec's `| fails(...)` arrows.
`clean` and `chunk` are the pure text-processing collaborators. -/
structure Env where
  validJobId : Bool
  markProcessingFails : Bool
  fetch : Except String String
  clean : String → String
  chunk : String → List String
  embed : List String → Except String (List (List Int))
  createCollectionFails : Bool
  addDocuments : List String → List (List Int) → Except String Nat
  markCompletedFails : Bool
  markFailedFails : Bool

/-- The record `_work` returns on success:
`{"job_id": jid, "status": "completed", "chunks_added": added}`. -/
structure WorkResult where
  job_id : String
  status : Status
  chunks_added : Nat
deriving DecidableEq, Repr

/-- The embedding loop of `_work` (lines 62-67):
`for i in range(0, len(chunks), batch_size): vectors.extend(embedder.embed_documents(chunks[i:i+100]))`.
Structural recursion on a fuel argument; each step consumes a batch of up to
100 chunks, so `fuel = chunks.length` always suffices (see `embedLoop`). -/
def embedGo (embed : List String → Except String (List (List Int))) :
    Nat → List String → Except String (List (List Int)) × List Event
  | _, [] => (.ok [], [])
  | 0, _ => (.ok [], [])
  | fuel + 1, chunks =>
    let batch := chunks.take 100
    match embed batch with
    | .error e => (.error e, [.embedCall batch])
    | .ok vs =>
      match embedGo embed fuel (chunks.drop 100) with
      | (.error e, evs) => (.error e, .embedCall batch :: evs)
      | (.ok vs2, evs) => (.ok (vs ++ vs2), .embedCall batch :: evs)

/-- The embedding stage: batches of 100, concatenating results in order. -/
def embedLoop (embed : List String → Except String (List (List Int)))
    (chunks : List String) : Except String (List (List Int)) × List Event :=
  embedGo embed chunks.length chunks

/-- Shallow embedding of `_work(jid, u)` (ingestion.py lines 39-79): parse the
job id, mark processing, fetch, clean, chunk, embed in batches, ensure the
collection, upsert, mark completed.  Returns the result of the attempt
(`Except` mirrors a raised exception) together with the ordered trace of
collaborator calls it performed. -/
def work (env : Env) (jid u : String) : Except String WorkResult × List Event :=
  if env.validJobId then
    let e1 := Event.statusWrite ⟨jid, .processing, none, none⟩ (!env.markProcessingFails)
    if env.markProcessingFails then
      (.error "processing write failed", [e1])
    else
      match env.fetch with
      | .error e => (.error e, [e1, .fetch u])
      | .ok html =>
        let text := env.clean html
        let chunks := env.chunk text
        match embedLoop env.embed chunks with
        | (.error e, evs) => (.error e, e1 :: .fetch u :: evs)
        | (.ok vectors, evs) =>
          if env.createCollectionFails then
            (.error "create collection failed", e1 :: .fetch u :: (evs ++ [.createCollection]))
          else
            match env.addDocuments chunks vectors with
            | .error e =>
              (.error e, e1 :: .fetch u :: (evs ++ [.createCollection, .upsert chunks vectors]))
            | .ok added =>
              let e2 := Event.statusWrite ⟨jid, .completed, some chunks.length, none⟩
                (!env.markCompletedFails)
              if env.markCompletedFails then
                (.error "completed write failed",
                  e1 :: .fetch u :: (evs ++ [.createCollection, .upsert chunks vectors, e2]))
              else
                (.ok ⟨jid, .completed, added⟩,
                  e1 :: .fetch u :: (evs ++ [.createCollection, .upsert chunks vectors, e2]))
  else
    (.error "invalid job_id", [])

/-- `max_retries=3` from the task decorator. -/
def max_retries : Nat := 3

/-- The base backoff delay: `countdown = 60 * (2 ** retries)`. -/
def base_delay : Nat := 60

/-- What the task signals to the Celery worker: a returned success record,
`raise self.retry(...)` with a countdown, or a terminal re-raise. -/
inductive Outcome where
  | success (r : WorkResult)
  | retryScheduled (countdown : Nat)
  | terminalFailure (msg : String)
deriving DecidableEq, Repr

/-- The `except Exception` handler of `process_url_ingestion` (lines 105-123):
try to mark the job failed (`UUID(job_id)` is re-parsed there, so nothing is
written when the job id is malformed; a store failure on this write is caught
and only logged), then retry with `60 * 2 ** retries` while
`retries < max_retries`, else re-raise. -/
def handleFailure (env : Env) (jid msg : String) (retries : Nat) :
    Outcome × List Event :=
  let failEvs :=
    if env.validJobId then
      [Event.statusWrite ⟨jid, .failed, none, some msg⟩ (!env.markFailedFails)]
    else []
  if retries < max_retries then
    (.retryScheduled (base_delay * 2 ^ retries), failEvs)
  else
    (.terminalFailure msg, failEvs)

/-- Shallow embedding of the whole task `process_url_ingestion` (lines 22-123).
`_work` runs on a separate thread with `thread.join(timeout=300)`.
`deadline = none` models an execution that finishes within the deadline: the
work's own result is used.  `deadline = some k` models the deadline firing
after the first `k` events of the work's trace: the orchestrator raises
`TimeoutError("Ingestion task timed out")` and runs the failure handler, but —
since `threading.Thread` is not killed — the abandoned thread keeps running
and its remaining events still happen afterwards, so the final trace is
`take k ++ handler events ++ drop k`.  `retries` is `self.request.retries`. -/
def process_url_ingestion (env : Env) (jid u : String) (retries : Nat)
    (deadline : Option Nat) : Outcome × List Event :=
  let (res, trace) := work env jid u
  match deadline with
  | none =>
    match res with
    | .ok r => (.success r, trace)
    | .error e =>
      let (out, evs) := handleFailure env jid e retries
      (out, trace ++ evs)
  | some k =>
    let (out, evs) := handleFailure env jid "Ingestion task timed out" retries
    (out, trace.take k ++ evs ++ trace.drop k)

/-- Fold step computing the last StatusStore write that was actually applied
(`ok = true`) for a given job. -/
def statusStep (jid : String) (acc : Option StatusWrite) (e : Event) :
    Option StatusWrite :=
  match e with
  | .statusWrite w ok => if ok then (if w.jid = jid then some w else acc) else acc
  | _ => acc

/-- The job's persisted status record after a trace: the last applied write. -/
def finalStatus (jid : String) (trace : List Event) : Option StatusWrite :=
  List.foldl (statusStep jid) none trace

/-- Whether an event is an Embedder call. -/
def isEmbedCall : Event → Bool
  | .embedCall _ => true
  | _ => false

/-- The collection-before-upsert discipline: scanning a trace left to right,
every `upsert` must be preceded by a `createCollection`. -/
def upsertGuarded (seen : Bool) : List Event → Bool
  | [] => true
  | .createCollection :: rest => upsertGuarded true rest
  | .upsert _ _ :: rest => seen && upsertGuarded seen rest
  | _ :: rest => upsertGuarded seen rest

/-- A fully-successful collaborator environment used for concrete runs:
the fetch returns one document, cleaning is the identity, chunking yields a
single chunk, embedding maps every chunk to the vector `[0]`, and the store
reports one chunk added per chunk given. -/
def env0 : Env where
  validJobId := true
  markProcessingFails := false
  fetch := .ok "<html>hi</html>"
  clean := fun h => h
  chunk := fun t => [t]
  embed := fun b => .ok (b.map (fun _ => [0]))
  createCollectionFails := false
  addDocuments := fun c _ => .ok c.length
  markCompletedFails := false
  markFailedFails := false

/-! ## Helper lemmas -/

/-- Fuel equal to the chunk count always suffices: when every Embedder call
succeeds and maps chunks elementwise through `g`, the loop succeeds, returns
the elementwise image of all chunks in order, and performs
`⌈chunks.length / 100⌉` calls. -/
theorem embedGo_ok (g : String → List Int)
    (embed : List String → Except String (List (List Int)))
    (hg : ∀ b, embed b = .ok (b.map g)) :
    ∀ fuel chunks, List.length chunks ≤ fuel →
      ∃ evs, embedGo embed fuel chunks = (.ok (chunks.map g), evs) ∧
        evs.length = (chunks.length + 99) / 100 := by
  intro fuel
  induction fuel with
  | zero =>
    intro chunks hlen
    have hnil : chunks = [] := List.eq_nil_of_length_eq_zero (Nat.le_zero.mp hlen)
    subst hnil
    exact ⟨[], rfl, by simp⟩
  | succ fuel ih =>
    intro chunks hlen
    match chunks with
    | [] => exact ⟨[], rfl, by simp⟩
    | c :: cs =>
      obtain ⟨evs, hE, hL⟩ := ih ((c :: cs).drop 100) (by simp at hlen ⊢; omega)
      refine ⟨.embedCall ((c :: cs).take 100) :: evs, ?_, ?_⟩
      · show (match embed ((c :: cs).take 100) with
          | Except.error e => (Except.error e, [Event.embedCall ((c :: cs).take 100)])
          | Except.ok vs =>
            match embedGo embed fuel ((c :: cs).drop 100) with
            | (Except.error e, evs) =>
              (Except.error e, Event.embedCall ((c :: cs).take 100) :: evs)
            | (Except.ok vs2, evs) =>
              (Except.ok (vs ++ vs2), Event.embedCall ((c :: cs).take 100) :: evs)) = _
        rw [hg, hE]
        simp only [← List.map_append, List.take_append_drop]
      · simp only [List.length_cons, hL]
        simp only [List.length_drop, List.length_cons]
        omega

/-- Every event emitted by the embedding loop is an Embedder call. -/
theorem embedGo_all_embedCall
    (embed : List String → Except String (List (List Int))) :
    ∀ fuel chunks, ((embedGo embed fuel chunks).2).all isEmbedCall = true := by
  intro fuel
  induction fuel with
  | zero =>
    intro chunks
    match chunks with
    | [] => rfl
    | _ :: _ => rfl
  | succ fuel ih =>
    intro chunks
    match chunks with
    | [] => rfl
    | c :: cs =>
      show ((match embed ((c :: cs).take 100) with
        | Except.error e => (Except.error e, [Event.embedCall ((c :: cs).take 100)])
        | Except.ok vs =>
          match embedGo embed fuel ((c :: cs).drop 100) with
          | (Except.error e, evs) =>
            (Except.error e, Event.embedCall ((c :: cs).take 100) :: evs)
          | (Except.ok vs2, evs) =>
            (Except.ok (vs ++ vs2),
              Event.embedCall ((c :: cs).take 100) :: evs)).2).all isEmbedCall = true
      have hrec := ih ((c :: cs).drop 100)
      cases hb : embed ((c :: cs).take 100) with
      | error e => rfl
      | ok vs =>
        rcases hr : embedGo embed fuel ((c :: cs).drop 100) with ⟨r, evs⟩
        rw [hr] at hrec
        cases r with
        | error e => simpa [isEmbedCall] using hrec
        | ok vs2 => simpa [isEmbedCall] using hrec

theorem upsertGuarded_nil (s : Bool) : upsertGuarded s [] = true := rfl

theorem upsertGuarded_statusWrite (s : Bool) (w : StatusWrite) (b : Bool)
    (l : List Event) :
    upsertGuarded s (.statusWrite w b :: l) = upsertGuarded s l := rfl

theorem upsertGuarded_fetch (s : Bool) (u : String) (l : List Event) :
    upsertGuarded s (.fetch u :: l) = upsertGuarded s l := rfl

theorem upsertGuarded_embedCall (s : Bool) (b : List String) (l : List Event) :
    upsertGuarded s (.embedCall b :: l) = upsertGuarded s l := rfl

theorem upsertGuarded_createCollection (s : Bool) (l : List Event) :
    upsertGuarded s (.createCollection :: l) = upsertGuarded true l := rfl

theorem upsertGuarded_upsert (s : Bool) (c : List String)
    (v : List (List Int)) (l : List Event) :
    upsertGuarded s (.upsert c v :: l) = (s && upsertGuarded s l) := rfl

/-- Embedder-call events are transparent to the collection-guard scan. -/
theorem upsertGuarded_append_all (evs : List Event)
    (h : evs.all isEmbedCall = true) (s : Bool) (rest : List Event) :
    upsertGuarded s (evs ++ rest) = upsertGuarded s rest := by
  induction evs with
  | nil => rfl
  | cons e es ih =>
    simp only [List.all_cons, Bool.and_eq_true] at h
    cases e with
    | embedCall b =>
      rw [List.cons_append, upsertGuarded_embedCall]
      exact ih h.2
    | statusWrite w b => simp [isEmbedCall] at h
    | fetch u => simp [isEmbedCall] at h
    | createCollection => simp [isEmbedCall] at h
    | upsert c v => simp [isEmbedCall] at h

/-- A trace of Embedder calls alone always satisfies the guard. -/
theorem upsertGuarded_all (evs : List Event) (h : evs.all isEmbedCall = true)
    (s : Bool) : upsertGuarded s evs = true := by
  have h2 := upsertGuarded_append_all evs h s []
  rw [List.append_nil] at h2
  exact h2.trans (upsertGuarded_nil s)

/-- Embedder-call events never touch the StatusStore fold. -/
theorem foldl_statusStep_all (jid : String) (evs : List Event)
    (h : evs.all isEmbedCall = true) (acc : Option StatusWrite) :
    List.foldl (statusStep jid) acc evs = acc := by
  induction evs generalizing acc with
  | nil => rfl
  | cons e es ih =>
    simp only [List.all_cons, Bool.and_eq_true] at h
    cases e with
    | embedCall b => exact ih h.2 acc
    | statusWrite w b => simp [isEmbedCall] at h
    | fetch u => simp [isEmbedCall] at h
    | createCollection => simp [isEmbedCall] at h
    | upsert c v => simp [isEmbedCall] at h

/-- When every collaborator call succeeds, `_work` returns the success record
and its trace is: processing write, fetch, embed calls, createCollection,
upsert, completed write (with `chunk_count` = number of chunks). -/
theorem work_ok (env : Env) (jid u html : String) (vectors : List (List Int))
    (evs : List Event) (added : Nat)
    (hvalid : env.validJobId = true)
    (hproc : env.markProcessingFails = false)
    (hfetch : env.fetch = .ok html)
    (hemb : embedLoop env.embed (env.chunk (env.clean html)) = (.ok vectors, evs))
    (hcc : env.createCollectionFails = false)
    (hadd : env.addDocuments (env.chunk (env.clean html)) vectors = .ok added)
    (hcompl : env.markCompletedFails = false) :
    work env jid u = (.ok ⟨jid, .completed, added⟩,
      .statusWrite ⟨jid, .processing, none, none⟩ true :: .fetch u ::
        (evs ++ [.createCollection, .upsert (env.chunk (env.clean html)) vectors,
          .statusWrite ⟨jid, .completed, some (env.chunk (env.clean html)).length, none⟩
            true])) := by
  unfold work
  rw [hvalid, hproc, hfetch]
  simp [hemb, hcc, hadd, hcompl]

/-- The outcome of a failed in-deadline attempt: retry with exponential backoff
while `retries < max_retries`, else terminal. -/
theorem processFailedOutcome (env : Env) (jid u e : String) (retries : Nat)
    (h : (work env jid u).1 = .error e) :
    (process_url_ingestion env jid u retries none).1 =
      if retries < max_retries then Outcome.retryScheduled (base_delay * 2 ^ retries)
      else Outcome.terminalFailure e := by
  unfold process_url_ingestion handleFailure
  rcases hw : work env jid u with ⟨res, tr⟩
  rw [hw] at h
  simp only at h
  subst h
  simp only
  split <;> rfl

/-- `_work` never reads the StatusStore's behaviour on the failure write. -/
theorem work_markFailedFails_indep (env : Env) (b : Bool) (jid u : String) :
    work { env with markFailedFails := b } jid u = work env jid u := by
  cases env
  rfl

/-- Fully-successful environment except the fetch raises. -/
def envF : Env := { env0 with fetch := .error "boom" }

/-- Environment whose job id does not parse as a UUID. -/
def envBadId : Env := { env0 with validJobId := false }

/-! ## Claims -/

/-- C1: for every valid (job_id, url) execution in which no collaborator call
fails and the deadline does not elapse, the returned record is
`{job_id, status=completed, chunks_added}` with `chunks_added` the count the
VectorStore reported from the upsert, and the persisted status is "completed"
with `chunk_count` equal to the number of chunks produced from the fetched and
cleaned text. -/
theorem C1_success_run (env : Env) (jid u html : String)
    (vectors : List (List Int)) (evs : List Event) (added retries : Nat)
    (hvalid : env.validJobId = true)
    (hproc : env.markProcessingFails = false)
    (hfetch : env.fetch = .ok html)
    (hemb : embedLoop env.embed (env.chunk (env.clean html)) = (.ok vectors, evs))
    (hcc : env.createCollectionFails = false)
    (hadd : env.addDocuments (env.chunk (env.clean html)) vectors = .ok added)
    (hcompl : env.markCompletedFails = false) :
    (process_url_ingestion env jid u retries none).1
      = .success ⟨jid, .completed, added⟩ ∧
    finalStatus jid (process_url_ingestion env jid u retries none).2
      = some ⟨jid, .completed, some (env.chunk (env.clean html)).length, none⟩ := by
  have hw := work_ok env jid u html vectors evs added hvalid hproc hfetch hemb hcc
    hadd hcompl
  have hall : evs.all isEmbedCall = true := by
    have h := embedGo_all_embedCall env.embed
      (env.chunk (env.clean html)).length (env.chunk (env.clean html))
    unfold embedLoop at hemb
    rw [hemb] at h
    exact h
  have hp : process_url_ingestion env jid u retries none
      = (.success ⟨jid, .completed, added⟩,
        .statusWrite ⟨jid, .processing, none, none⟩ true :: .fetch u ::
          (evs ++ [.createCollection, .upsert (env.chunk (env.clean html)) vectors,
            .statusWrite ⟨jid, .completed, some (env.chunk (env.clean html)).length,
              none⟩ true])) := by
    unfold process_url_ingestion
    rw [hw]
  rw [hp]
  refine ⟨rfl, ?_⟩
  unfold finalStatus
  simp only [List.foldl_cons, List.foldl_append]
  rw [foldl_statusStep_all jid evs hall]
  simp [statusStep]

/-- C1 witness: a concrete all-success run. -/
theorem C1_success_run_witness :
    (process_url_ingestion env0 "j" "u" 0 none).1
      = .success ⟨"j", .completed, 1⟩ ∧
    finalStatus "j" (process_url_ingestion env0 "j" "u" 0 none).2
      = some ⟨"j", .completed, some 1, none⟩ :=
  C1_success_run env0 "j" "u" "<html>hi</html>" [[0]]
    [.embedCall ["<html>hi</html>"]] 1 0 rfl rfl rfl rfl rfl rfl rfl

/-- C4: for every failed attempt, a retry is scheduled iff the current attempt
count is strictly below `max_retries` (3), with countdown exactly
`base_delay (60) * 2 ^ attempt_count`; otherwise the error propagates as
terminal. -/
theorem C4_retry_policy (env : Env) (jid u e : String) (retries : Nat)
    (hwork : (work env jid u).1 = .error e) :
    (process_url_ingestion env jid u retries none).1 =
      if retries < max_retries then Outcome.retryScheduled (base_delay * 2 ^ retries)
      else Outcome.terminalFailure e :=
  processFailedOutcome env jid u e retries hwork

/-- C4 witness: a fetch failure at attempt 1 schedules a retry in 120s. -/
theorem C4_retry_policy_witness :
    (process_url_ingestion envF "j" "u" 1 none).1 =
      if 1 < max_retries then Outcome.retryScheduled (base_delay * 2 ^ 1)
      else Outcome.terminalFailure "boom" :=
  C4_retry_policy envF "j" "u" "boom" 1 rfl

/-- C5 counterexample: with a malformed job_id at attempt 0 the task schedules
a retry (countdown 60), contradicting the claim that no retry is scheduled for
a validation failure. -/
theorem C5_counterexample :
    process_url_ingestion envBadId "not-a-uuid" "u" 0 none
      = (.retryScheduled 60, []) := rfl

/-- C5 amended: a malformed job_id fails the attempt immediately with no
StatusStore write performed at all (the failure-report write itself fails at
the UUID re-parse and is swallowed), but the failure is retried like any
other: a retry is scheduled exactly when the attempt count is below
`max_retries`. -/
theorem C5_amended_malformed (env : Env) (jid u : String) (retries : Nat)
    (h : env.validJobId = false) :
    process_url_ingestion env jid u retries none =
      ((if retries < max_retries then Outcome.retryScheduled (base_delay * 2 ^ retries)
        else Outcome.terminalFailure "invalid job_id"), []) := by
  unfold process_url_ingestion work handleFailure
  rw [h]
  simp only [Bool.false_eq_true, if_false]
  split <;> rfl

/-- C5 amended witness: the malformed-id failure at attempt 0. -/
theorem C5_amended_malformed_witness :
    process_url_ingestion envBadId "not-a-uuid" "u" 0 none =
      ((if 0 < max_retries then Outcome.retryScheduled (base_delay * 2 ^ 0)
        else Outcome.terminalFailure "invalid job_id"), []) :=
  C5_amended_malformed envBadId "not-a-uuid" "u" 0 rfl

/-- Collaborators succeed but the Embedder returns a vector count different
from the chunk count (2 chunks, 0 vectors); the store still reports 7 added. -/
def envMismatch : Env :=
  { env0 with
    chunk := fun t => [t, t]
    embed := fun _ => .ok []
    addDocuments := fun _ _ => .ok 7 }

/-- Collaborators succeed except the "processing" status write raises. -/
def envProcFail : Env := { env0 with markProcessingFails := true }

/-- C2 (refuting the claim on the code): with every collaborator succeeding
and the deadline firing after the first two trace events, the orchestrator
reports the timeout (a retry is scheduled for it), yet the abandoned thread's
late writes still take effect: the vector upsert happens and the final
persisted status is "completed" — a late write was applied after abandonment
was declared. -/
theorem C2_late_write_applied :
    (process_url_ingestion env0 "j" "u" 0 (some 2)).1 = .retryScheduled 60 ∧
    finalStatus "j" (process_url_ingestion env0 "j" "u" 0 (some 2)).2
      = some ⟨"j", .completed, some 1, none⟩ ∧
    Event.upsert ["<html>hi</html>"] [[0]]
      ∈ (process_url_ingestion env0 "j" "u" 0 (some 2)).2 :=
  ⟨rfl, rfl, by decide⟩

/-- C3: when the deadline fires, the job is marked "failed" with the timeout
error message, and the timeout failure follows the standard retry policy: a
retry with exponential backoff when the attempt count is below `max_retries`,
terminal propagation otherwise. -/
theorem C3_timeout_failure (env : Env) (jid u : String) (retries k : Nat)
    (hvalid : env.validJobId = true)
    (hmf : env.markFailedFails = false) :
    (process_url_ingestion env jid u retries (some k)).1 =
      (if retries < max_retries then Outcome.retryScheduled (base_delay * 2 ^ retries)
       else Outcome.terminalFailure "Ingestion task timed out") ∧
    Event.statusWrite ⟨jid, .failed, none, some "Ingestion task timed out"⟩ true
      ∈ (process_url_ingestion env jid u retries (some k)).2 := by
  unfold process_url_ingestion handleFailure
  rcases hw : work env jid u with ⟨res, tr⟩
  simp only [hvalid, hmf, Bool.not_false, if_true]
  constructor
  · split <;> rfl
  · split <;> simp

/-- C3 witness: a timeout at attempt 0 with a fully-successful environment. -/
theorem C3_timeout_failure_witness :
    (process_url_ingestion env0 "j" "u" 0 (some 0)).1 =
      (if 0 < max_retries then Outcome.retryScheduled (base_delay * 2 ^ 0)
       else Outcome.terminalFailure "Ingestion task timed out") ∧
    Event.statusWrite ⟨"j", .failed, none, some "Ingestion task timed out"⟩ true
      ∈ (process_url_ingestion env0 "j" "u" 0 (some 0)).2 :=
  C3_timeout_failure env0 "j" "u" 0 0 rfl rfl

/-- C6 counterexample: the Embedder returns 0 vectors for 2 chunks, yet no
integrity error is raised: the attempt upserts the mismatched lists and
completes successfully, contradicting the claim that a mismatch is detected
and stops the attempt. -/
theorem C6_counterexample :
    (process_url_ingestion envMismatch "j" "u" 0 none).1
      = .success ⟨"j", .completed, 7⟩ ∧
    Event.upsert ["<html>hi</html>", "<html>hi</html>"] []
      ∈ (process_url_ingestion envMismatch "j" "u" 0 none).2 ∧
    (["<html>hi</html>", "<html>hi</html>"] : List String).length
      ≠ ([] : List (List Int)).length :=
  ⟨rfl, by decide, by decide⟩

/-- C6 amended: the code performs no chunk/vector count check: even when the
embedding stage returns a vector count different from the chunk count, the
attempt proceeds to upsert the mismatched lists and completes successfully. -/
theorem C6_amended_no_integrity_check (env : Env) (jid u html : String)
    (vectors : List (List Int)) (evs : List Event) (added retries : Nat)
    (hvalid : env.validJobId = true)
    (hproc : env.markProcessingFails = false)
    (hfetch : env.fetch = .ok html)
    (hemb : embedLoop env.embed (env.chunk (env.clean html)) = (.ok vectors, evs))
    (hcc : env.createCollectionFails = false)
    (hadd : env.addDocuments (env.chunk (env.clean html)) vectors = .ok added)
    (hcompl : env.markCompletedFails = false)
    (hmis : vectors.length ≠ (env.chunk (env.clean html)).length) :
    (process_url_ingestion env jid u retries none).1
      = .success ⟨jid, .completed, added⟩ ∧
    Event.upsert (env.chunk (env.clean html)) vectors
      ∈ (process_url_ingestion env jid u retries none).2 := by
  have hw := work_ok env jid u html vectors evs added hvalid hproc hfetch hemb hcc
    hadd hcompl
  have hp : process_url_ingestion env jid u retries none
      = (.success ⟨jid, .completed, added⟩,
        .statusWrite ⟨jid, .processing, none, none⟩ true :: .fetch u ::
          (evs ++ [.createCollection, .upsert (env.chunk (env.clean html)) vectors,
            .statusWrite ⟨jid, .completed, some (env.chunk (env.clean html)).length,
              none⟩ true])) := by
    unfold process_url_ingestion
    rw [hw]
  rw [hp]
  exact ⟨rfl, by simp⟩

/-- C6 amended witness: 2 chunks, 0 vectors, successful completion. -/
theorem C6_amended_no_integrity_check_witness :
    (process_url_ingestion envMismatch "j" "u" 0 none).1
      = .success ⟨"j", .completed, 7⟩ ∧
    Event.upsert ["<html>hi</html>", "<html>hi</html>"] []
      ∈ (process_url_ingestion envMismatch "j" "u" 0 none).2 :=
  C6_amended_no_integrity_check envMismatch "j" "u" "<html>hi</html>" []
    [.embedCall ["<html>hi</html>", "<html>hi</html>"]] 7 0
    rfl rfl rfl rfl rfl rfl rfl (by decide)

/-- C7 counterexample: when the "processing" status write fails, the attempt
aborts — no fetch and no later pipeline stage runs — and the task enters the
failure/retry path, contradicting the claim that the implementation logs and
continues with the pipeline. -/
theorem C7_counterexample :
    process_url_ingestion envProcFail "j" "u" 0 none
      = (.retryScheduled 60,
        [.statusWrite ⟨"j", .processing, none, none⟩ false,
         .statusWrite ⟨"j", .failed, none, some "processing write failed"⟩ true]) ∧
    Event.fetch "u" ∉ (process_url_ingestion envProcFail "j" "u" 0 none).2 :=
  ⟨rfl, by decide⟩

/-- C7 amended: a failing "processing" write is not caught inside `_work`: the
attempt aborts with that error before any pipeline stage runs (no fetch event
occurs), the job is marked failed, and the standard retry policy applies. -/
theorem C7_amended_abort (env : Env) (jid u : String) (retries : Nat)
    (hvalid : env.validJobId = true)
    (hpf : env.markProcessingFails = true)
    (hmf : env.markFailedFails = false) :
    process_url_ingestion env jid u retries none =
      ((if retries < max_retries then Outcome.retryScheduled (base_delay * 2 ^ retries)
        else Outcome.terminalFailure "processing write failed"),
       [.statusWrite ⟨jid, .processing, none, none⟩ false,
        .statusWrite ⟨jid, .failed, none, some "processing write failed"⟩ true]) ∧
    ∀ v, Event.fetch v ∉ (process_url_ingestion env jid u retries none).2 := by
  have hp : process_url_ingestion env jid u retries none =
      ((if retries < max_retries then Outcome.retryScheduled (base_delay * 2 ^ retries)
        else Outcome.terminalFailure "processing write failed"),
       [.statusWrite ⟨jid, .processing, none, none⟩ false,
        .statusWrite ⟨jid, .failed, none, some "processing write failed"⟩ true]) := by
    unfold process_url_ingestion work handleFailure
    simp only [hvalid, hpf, hmf, Bool.not_true, Bool.not_false, if_true]
    split <;> rfl
  rw [hp]
  refine ⟨rfl, ?_⟩
  intro v
  simp

/-- C7 amended witness: the aborting processing-write failure at attempt 0. -/
theorem C7_amended_abort_witness :
    process_url_ingestion envProcFail "j" "u" 0 none =
      ((if 0 < max_retries then Outcome.retryScheduled (base_delay * 2 ^ 0)
        else Outcome.terminalFailure "processing write failed"),
       [.statusWrite ⟨"j", .processing, none, none⟩ false,
        .statusWrite ⟨"j", .failed, none, some "processing write failed"⟩ true]) ∧
    ∀ v, Event.fetch v ∉ (process_url_ingestion envProcFail "j" "u" 0 none).2 :=
  C7_amended_abort envProcFail "j" "u" 0 rfl rfl rfl

/-- C8: for every failed attempt, the retry-versus-terminal decision is
unchanged whether or not the StatusStore write persisting the "failed" status
itself fails: the outcome is identical under both store behaviours, and is
determined solely by the original error and the attempt count. -/
theorem C8_audit_write_independent (env : Env) (jid u e : String) (retries : Nat)
    (hwork : (work env jid u).1 = .error e) :
    (process_url_ingestion { env with markFailedFails := true } jid u retries none).1
      = (process_url_ingestion { env with markFailedFails := false } jid u retries none).1 ∧
    (process_url_ingestion { env with markFailedFails := true } jid u retries none).1
      = (if retries < max_retries then Outcome.retryScheduled (base_delay * 2 ^ retries)
         else Outcome.terminalFailure e) := by
  have h1 : (work { env with markFailedFails := true } jid u).1 = .error e := by
    rw [work_markFailedFails_indep]
    exact hwork
  have h2 : (work { env with markFailedFails := false } jid u).1 = .error e := by
    rw [work_markFailedFails_indep]
    exact hwork
  refine ⟨?_, processFailedOutcome _ jid u e retries h1⟩
  rw [processFailedOutcome _ jid u e retries h1,
    processFailedOutcome _ jid u e retries h2]

/-- C8 witness: a fetch failure at attempt 0 with both audit-write behaviours. -/
theorem C8_audit_write_independent_witness :
    (process_url_ingestion { envF with markFailedFails := true } "j" "u" 0 none).1
      = (process_url_ingestion { envF with markFailedFails := false } "j" "u" 0 none).1 ∧
    (process_url_ingestion { envF with markFailedFails := true } "j" "u" 0 none).1
      = (if 0 < max_retries then Outcome.retryScheduled (base_delay * 2 ^ 0)
         else Outcome.terminalFailure "boom") :=
  C8_audit_write_independent envF "j" "u" "boom" 0 rfl

/-- C9: when every Embedder call maps its batch elementwise through `g` (the
spec's batch contract), the embedding stage of `_work` succeeds with the
elementwise image of all chunks — the concatenated vector sequence has one
vector per chunk, in positional correspondence — and performs exactly
`⌈N / 100⌉` Embedder calls for `N` chunks. -/
theorem C9_batching (g : String → List Int)
    (embed : List String → Except String (List (List Int)))
    (chunks : List String)
    (hg : ∀ b, embed b = .ok (b.map g)) :
    (embedLoop embed chunks).1 = .ok (chunks.map g) ∧
    ((embedLoop embed chunks).2).length = (chunks.length + 99) / 100 ∧
    ((embedLoop embed chunks).2).all isEmbedCall = true := by
  obtain ⟨evs, hE, hL⟩ := embedGo_ok g embed hg chunks.length chunks (le_refl _)
  unfold embedLoop
  rw [hE]
  exact ⟨rfl, hL, by
    have h := embedGo_all_embedCall embed chunks.length chunks
    rw [hE] at h
    exact h⟩

/-- C9 witness: 205 chunks embed in exactly 3 batched calls, one vector per
chunk. -/
theorem C9_batching_witness :
    (embedLoop (fun b => .ok (b.map (fun _ => ([] : List Int))))
        (List.replicate 205 "c")).1
      = .ok ((List.replicate 205 "c").map (fun _ => ([] : List Int))) ∧
    ((embedLoop (fun b => .ok (b.map (fun _ => ([] : List Int))))
        (List.replicate 205 "c")).2).length = 3 := by
  have h := C9_batching (fun _ => ([] : List Int))
    (fun b => .ok (b.map (fun _ => ([] : List Int))))
    (List.replicate 205 "c") (fun b => rfl)
  exact ⟨h.1, by rw [h.2.1, List.length_replicate]⟩

/-- C10: in every attempt, `_work` calls `create_collection_if_not_exists`
before `add_documents`: scanning the attempt's trace left to right, every
upsert is preceded by a createCollection. -/
theorem C10_collection_before_upsert (env : Env) (jid u : String) :
    upsertGuarded false (work env jid u).2 = true := by
  unfold work
  cases hv : env.validJobId with
  | false => rfl
  | true =>
    cases hp : env.markProcessingFails with
    | true => rfl
    | false =>
      cases hf : env.fetch with
      | error e => rfl
      | ok html =>
        rcases he : embedLoop env.embed (env.chunk (env.clean html)) with ⟨r, evs⟩
        have hall : evs.all isEmbedCall = true := by
          have h := embedGo_all_embedCall env.embed
            (env.chunk (env.clean html)).length (env.chunk (env.clean html))
          unfold embedLoop at he
          rw [he] at h
          exact h
        cases r with
        | error e =>
          simp [hv, hp, hf, he, upsertGuarded_statusWrite, upsertGuarded_fetch,
            upsertGuarded_all evs hall]
        | ok vectors =>
          cases hc : env.createCollectionFails with
          | true =>
            simp [hv, hp, hf, he, hc, upsertGuarded_statusWrite,
              upsertGuarded_fetch, upsertGuarded_append_all evs hall,
              upsertGuarded_createCollection, upsertGuarded_nil]
          | false =>
            cases ha : env.addDocuments (env.chunk (env.clean html)) vectors with
            | error e =>
              simp [hv, hp, hf, he, hc, ha, upsertGuarded_statusWrite,
                upsertGuarded_fetch, upsertGuarded_append_all evs hall,
                upsertGuarded_createCollection, upsertGuarded_upsert,
                upsertGuarded_nil]
            | ok added =>
              cases hm : env.markCompletedFails with
              | true =>
                simp [hv, hp, hf, he, hc, ha, hm, upsertGuarded_statusWrite,
                  upsertGuarded_fetch, upsertGuarded_append_all evs hall,
                  upsertGuarded_createCollection, upsertGuarded_upsert,
                  upsertGuarded_nil]
              | false =>
                simp [hv, hp, hf, he, hc, ha, hm, upsertGuarded_statusWrite,
                  upsertGuarded_fetch, upsertGuarded_append_all evs hall,
                  upsertGuarded_createCollection, upsertGuarded_upsert,
                  upsertGuarded_nil]

end Ingestion
